import Mathlib

/-!
Shallow embedding of the benchmarking harness scripts `test-image.py` and
`render-tests.py` of the locations service repository.

Modelling conventions: Python floats are idealised as exact rationals (`ℚ`),
Python ints as `ℤ`/`ℕ`, Python dicts as insertion-ordered association lists,
and raised exceptions as `Except`/`Option` results.  The module-level mutable
variables (`TOTAL_REQUESTS`, `TOTAL_REQUEST_ERRORS`, `STATS`, `CHECKS`) become
explicit state threaded through the functions that mutate them.  External
effects (Docker stats, the wrk process output) are inputs to the model.
-/

namespace Harness

/-- AST of the regular-expression fragment used by the patterns in
`run_benchmark`: character classes, `.`, concatenation, alternation,
starred character classes, `.*` and capture groups.  `p?` is encoded as
`alt p eps` and `[..]+` as `seq (cls ..) (starCls ..)`. -/
inductive Pat where
  | eps : Pat
  | cls : List Char → Pat
  | dot : Pat
  | seq : Pat → Pat → Pat
  | alt : Pat → Pat → Pat
  | starCls : List Char → Pat
  | starDot : Pat
  | group : Pat → Pat

/-- Greedy Kleene star over single characters accepted by `accept`, in
continuation-passing style with backtracking: the longest consumed prefix
is tried first, as in Python's `re`. -/
def starRun (accept : Char → Bool) : List Char → (List Char → Option (List String)) → Option (List String)
  | [], k => k []
  | c :: rest, k =>
    if accept c then (starRun accept rest k).or (k (c :: rest)) else k (c :: rest)

/-- Backtracking regex matcher in continuation-passing style.  The
continuation receives the remaining input and the capture groups
accumulated so far (in order of opening parenthesis; the embedded
patterns have no nested groups). -/
def mrun : Pat → List Char → (List Char → List String → Option (List String)) → List String → Option (List String)
  | .eps, s, k, caps => k s caps
  | .cls cs, s, k, caps =>
    match s with
    | [] => none
    | c :: rest => if cs.contains c then k rest caps else none
  | .dot, s, k, caps =>
    match s with
    | [] => none
    | _ :: rest => k rest caps
  | .seq p q, s, k, caps => mrun p s (fun s2 caps2 => mrun q s2 k caps2) caps
  | .alt p q, s, k, caps => (mrun p s k caps).or (mrun q s k caps)
  | .starCls cs, s, k, caps => starRun (fun c => cs.contains c) s (fun s2 => k s2 caps)
  | .starDot, s, k, caps => starRun (fun _ => true) s (fun s2 => k s2 caps)
  | .group p, s, k, caps =>
    mrun p s (fun s2 caps2 => k s2 (caps2 ++ [String.mk (s.take (s.length - s2.length))])) caps

/-- Model of `re.fullmatch pattern line`: `some` of the capture-group list when the
whole line matches, `none` otherwise. -/
def fullmatch (p : Pat) (line : String) : Option (List String) :=
  mrun p line.data (fun rem caps => if rem.isEmpty then some caps else none) []

/-- Single-character literal. -/
def lit (c : Char) : Pat := .cls [c]

/-- Literal string pattern. -/
def lits (s : String) : Pat := s.data.foldr (fun c acc => .seq (lit c) acc) .eps

/-- The character class `[0-9]`. -/
def digitChars : List Char := ['0', '1', '2', '3', '4', '5', '6', '7', '8', '9']

/-- Pattern `[..]+` over a character class. -/
def plusCls (cs : List Char) : Pat := .seq (.cls cs) (.starCls cs)

/-- Pattern `p?`. -/
def optPat (p : Pat) : Pat := .alt p .eps

/-- The pattern `' +{percentile}% +([0-9.]+)([mu]?)s *'` from `match_latency`
(the percentile is interpolated via an f-string). -/
def latencyPat (percentile : ℕ) : Pat :=
  .seq (plusCls [' ']) (.seq (lits (toString percentile)) (.seq (lit '%')
    (.seq (plusCls [' ']) (.seq (.group (plusCls ('.' :: digitChars)))
    (.seq (.group (optPat (.cls ['m', 'u']))) (.seq (lit 's') (.starCls [' '])))))))

/-- The pattern `' +([0-9]+) requests in .* read'` from `run_benchmark`. -/
def requestsPat : Pat :=
  .seq (plusCls [' ']) (.seq (.group (plusCls digitChars))
    (.seq (lits " requests in ") (.seq .starDot (lits " read"))))

/-- The pattern `' +Non-2xx or 3xx responses: ([0-9]+) *'` from
`run_benchmark`. -/
def non2xxPat : Pat :=
  .seq (plusCls [' ']) (.seq (lits "Non-2xx or 3xx responses: ")
    (.seq (.group (plusCls digitChars)) (.starCls [' '])))

/-- The pattern `' +Socket errors: connect ([0-9]+), read ([0-9]+), write
([0-9]+), timeout ([0-9]+) *'` from `run_benchmark`. -/
def socketPat : Pat :=
  .seq (plusCls [' ']) (.seq (lits "Socket errors: connect ")
    (.seq (.group (plusCls digitChars)) (.seq (lits ", read ")
    (.seq (.group (plusCls digitChars)) (.seq (lits ", write ")
    (.seq (.group (plusCls digitChars)) (.seq (lits ", timeout ")
    (.seq (.group (plusCls digitChars)) (.starCls [' '])))))))))

/-- The inner function `match_line` of `run_benchmark` (lines 607-613):
return the match of the first line that fully matches the pattern;
`none` models the `ValueError` raised when no line matches. -/
def match_line (pat : Pat) : List String → Option (List String)
  | [] => none
  | l :: ls =>
    match fullmatch pat l with
    | some m => some m
    | none => match_line pat ls

/-- Number of lines `match_line` examines, i.e. the number of
`re.fullmatch` calls it performs: one per line until the first match. -/
def match_line_steps (pat : Pat) : List String → ℕ
  | [] => 0
  | l :: ls =>
    match fullmatch pat l with
    | some _ => 1
    | none => 1 + match_line_steps pat ls

/-- Python `int` on a string of decimal digits. -/
def natOfDigits (s : String) : ℕ :=
  s.data.foldl (fun a c => 10 * a + (c.toNat - '0'.toNat)) 0

/-- Whether every character is a decimal digit. -/
def isDigits (l : List Char) : Bool := l.all (fun c => digitChars.contains c)

/-- Model of Python `split` on the dot separator used by `float` parsing. -/
def splitOnDot : List Char → List (List Char)
  | [] => [[]]
  | c :: rest =>
    if c = '.' then [] :: splitOnDot rest
    else
      match splitOnDot rest with
      | [] => [[c]]
      | h :: t => (c :: h) :: t

/-- Python `float` on a string matched by `[0-9.]+`: digits with at most one
decimal point and at least one digit; `none` models the `ValueError` that
`float` raises otherwise (e.g. on `"1.2.3"` or `"."`). -/
def parseFloat (s : String) : Option ℚ :=
  match splitOnDot s.data with
  | [ip] =>
    if isDigits ip && !ip.isEmpty then some (natOfDigits (String.mk ip) : ℚ) else none
  | [ip, fp] =>
    if isDigits ip && isDigits fp && (!ip.isEmpty || !fp.isEmpty) then
      some ((natOfDigits (String.mk ip) : ℚ) + (natOfDigits (String.mk fp) : ℚ) / 10 ^ fp.length)
    else none
  | _ => none

/-- The exceptions `run_benchmark`'s parsing can raise. -/
inductive BenchError where
  | valueError : BenchError
  | assertionError : BenchError
deriving DecidableEq

/-- The inner function `match_latency` of `run_benchmark` (lines 615-622):
latency in milliseconds.  `.error .valueError` models both the
pattern-not-found `ValueError` from `match_line` and the `float()`
conversion error. -/
def match_latency (lines : List String) (percentile : ℕ) : Except BenchError ℚ :=
  match match_line (latencyPat percentile) lines with
  | none => .error .valueError
  | some caps =>
    match parseFloat (caps.getD 0 "") with
    | none => .error .valueError
    | some latency0 =>
      let latency1 := if caps.getD 1 "" = "" then latency0 * 1000 else latency0
      let latency2 := if caps.getD 1 "" = "u" then latency1 / 1000 else latency1
      .ok latency2

/-- The figures `run_benchmark` extracts from the wrk output before it
updates the global counters. -/
structure BenchParse where
  latency_50p_ms : ℚ
  latency_90p_ms : ℚ
  latency_99p_ms : ℚ
  requests_new : ℤ
  request_errors_new : ℤ
  other_errors_new : ℤ
deriving DecidableEq

/-- The parsing part of `run_benchmark` (lines 624-643): three mandatory
percentile-latency lines, the mandatory total-requests line, the two
optional error lines defaulting to 0 when their `match_line` raises
`ValueError`, and the assertion that wrk reported zero timeout errors. -/
def parse_bench_output (lines : List String) : Except BenchError BenchParse := do
  let latency_50p_ms ← match_latency lines 50
  let latency_90p_ms ← match_latency lines 90
  let latency_99p_ms ← match_latency lines 99
  let requests_new : ℤ ←
    match match_line requestsPat lines with
    | none => Except.error BenchError.valueError
    | some caps => Except.ok (natOfDigits (caps.getD 0 "") : ℤ)
  let request_errors_new : ℤ :=
    match match_line non2xxPat lines with
    | none => 0
    | some caps => (natOfDigits (caps.getD 0 "") : ℤ)
  let other_errors_new : ℤ ←
    match match_line socketPat lines with
    | none => Except.ok (0 : ℤ)
    | some caps =>
      if natOfDigits (caps.getD 3 "") = 0 then
        Except.ok ((caps.map (fun g => (natOfDigits g : ℤ))).sum)
      else Except.error BenchError.assertionError
  pure {
    latency_50p_ms := latency_50p_ms
    latency_90p_ms := latency_90p_ms
    latency_99p_ms := latency_99p_ms
    requests_new := requests_new
    request_errors_new := request_errors_new
    other_errors_new := other_errors_new }

/-- The `Stats` dataclass (lines 51-66).  Fields that the Python code sets
to `None` are `Option`s. -/
structure Stats where
  message : String
  cpu_total_s : ℚ
  cpu_new_s : Option ℚ
  mem_usage_mb : ℚ
  mem_max_mb : ℚ
  requests_total : ℤ
  requests_new : Option ℤ
  request_errors_total : ℤ
  request_errors_new : Option ℤ
  connections : Option ℕ
  latency_50p_ms : Option ℚ
  latency_90p_ms : Option ℚ
  latency_99p_ms : Option ℚ
  requests_per_s : Option ℚ
deriving DecidableEq

/-- The module-level mutable counters of `test-image.py` that the
statistics logic updates. -/
structure HarnessState where
  TOTAL_REQUESTS : ℤ
  TOTAL_REQUEST_ERRORS : ℤ
  STATS : List Stats
deriving DecidableEq

/-- The figures `collect_stats` reads from `container.stats(stream=False)`:
integers, in nanoseconds (CPU) resp. bytes (memory). -/
structure DockerStats where
  cpu_total_usage : ℕ
  mem_usage : ℕ
  mem_max_usage : ℕ
deriving DecidableEq

/-- Model of `collect_stats` (lines 551-580), success path (the container is alive,
so no `ContainerDied` is raised).  Builds a `Stats` record from the Docker
stats and the running totals, fills the three `*_new` delta fields from the
last recorded entry when `STATS` is non-empty, and appends the record. -/
def collect_stats (st : HarnessState) (ds : DockerStats) (message : String)
    (connections : Option ℕ) (latency_50p_ms latency_90p_ms latency_99p_ms : Option ℚ)
    (requests_per_s : Option ℚ) : HarnessState :=
  let stats0 : Stats := {
    message := message
    cpu_total_s := (ds.cpu_total_usage : ℚ) / 1000 ^ 3
    cpu_new_s := none
    mem_usage_mb := (ds.mem_usage : ℚ) / 1024 ^ 2
    mem_max_mb := (ds.mem_max_usage : ℚ) / 1024 ^ 2
    requests_total := st.TOTAL_REQUESTS
    requests_new := none
    request_errors_total := st.TOTAL_REQUEST_ERRORS
    request_errors_new := none
    connections := connections
    latency_50p_ms := latency_50p_ms
    latency_90p_ms := latency_90p_ms
    latency_99p_ms := latency_99p_ms
    requests_per_s := requests_per_s }
  let stats :=
    match st.STATS.getLast? with
    | none => stats0
    | some prev_stats =>
      { stats0 with
        cpu_new_s := some (stats0.cpu_total_s - prev_stats.cpu_total_s)
        requests_new := some (stats0.requests_total - prev_stats.requests_total)
        request_errors_new := some (stats0.request_errors_total - prev_stats.request_errors_total) }
  { st with STATS := st.STATS ++ [stats] }

/-- The fixed benchmark round duration in seconds (line 585). -/
def duration_s : ℕ := 10

/-- Model of `run_benchmark` (lines 583-652): parse the wrk output, subtract the
error responses from the reported request count, bump the global totals,
and record a `Stats` entry via `collect_stats`. -/
def run_benchmark (st : HarnessState) (ds : DockerStats) (connection_count : ℕ)
    (lines : List String) : Except BenchError HarnessState :=
  match parse_bench_output lines with
  | .error e => .error e
  | .ok pr =>
    let requests_new := pr.requests_new - pr.request_errors_new
    let st' : HarnessState :=
      { st with
        TOTAL_REQUESTS := st.TOTAL_REQUESTS + requests_new
        TOTAL_REQUEST_ERRORS := st.TOTAL_REQUEST_ERRORS + (pr.request_errors_new + pr.other_errors_new) }
    let requests_per_s : ℚ := (requests_new : ℚ) / (duration_s : ℚ)
    .ok (collect_stats st' ds "Bench" (some connection_count) (some pr.latency_50p_ms)
      (some pr.latency_90p_ms) (some pr.latency_99p_ms) (some requests_per_s))

/-- The connection-count sweep of `test_image` (line 111). -/
def connection_range (bench : Bool) : List ℕ :=
  if bench then [1, 1, 1, 1, 1, 2, 4, 8, 16, 32, 64, 128, 256, 512, 1024, 2048] else []

/-- The benchmark loop of `test_image` (lines 112-113): one `run_benchmark`
invocation per element of the given connection-count list, threading the
module state; `io` supplies the Docker stats and the wrk output lines of
the round with the given index.  A raised exception aborts the loop. -/
def bench_loop (io : ℕ → DockerStats × List String) :
    HarnessState → List ℕ → ℕ → Except BenchError HarnessState
  | st, [], _ => .ok st
  | st, c :: cs, i =>
    match run_benchmark st (io i).1 c (io i).2 with
    | .error e => .error e
    | .ok st' => bench_loop io st' cs (i + 1)

/-- The benchmark phase of `test_image`: the loop over `connection_range`. -/
def test_image_bench (st : HarnessState) (bench : Bool)
    (io : ℕ → DockerStats × List String) : Except BenchError HarnessState :=
  bench_loop io st (connection_range bench) 0

/-- A concrete wrk output used to exercise the benchmark model: one 10s
round with 100 requests, all successful, and 1ms latencies. -/
def wrkOutput0 : List String :=
  ["    50%  1ms", "    90%  1ms", "    99%  1ms", "  100 requests in 10.01s, 0KB read"]

/-- A value recorded into `CHECKS`: Python float or string. -/
inductive Val where
  | float : ℚ → Val
  | str : String → Val
deriving DecidableEq

/-- The `CHECKS` results map, a Python dict: an insertion-ordered association list. -/
abbrev Checks := List (String × Val)

/-- Model of `log_check` (lines 141-145): `assert message not in CHECKS` raises
`AssertionError` (modelled as `.error ()`) before any mutation happens;
otherwise the pair is appended (Python dict insertion of a fresh key). -/
def log_check (checks : Checks) (message : String) (value : Val) : Except Unit Checks :=
  if (checks.map Prod.fst).contains message then .error ()
  else .ok (checks ++ [(message, value)])

/-- JSON values: what `save_results` dumps and `render-tests.py` loads. -/
inductive Json where
  | null : Json
  | num : ℚ → Json
  | str : String → Json
  | arr : List Json → Json
  | obj : List (String × Json) → Json

/-- An optional float as JSON (`None` dumps as `null`). -/
def optNumToJson (q : Option ℚ) : Json :=
  match q with
  | none => .null
  | some x => .num x

/-- An optional int as JSON. -/
def optIntToJson (z : Option ℤ) : Json :=
  match z with
  | none => .null
  | some x => .num (x : ℚ)

/-- An optional nonnegative int as JSON. -/
def optNatToJson (n : Option ℕ) : Json :=
  match n with
  | none => .null
  | some x => .num (x : ℚ)

/-- Model of `dataclasses.asdict` on a `Stats` record: a JSON object with the
fourteen fields in dataclass declaration order. -/
def asdict (s : Stats) : Json :=
  .obj [
    ("message", .str s.message),
    ("cpu_total_s", .num s.cpu_total_s),
    ("cpu_new_s", optNumToJson s.cpu_new_s),
    ("mem_usage_mb", .num s.mem_usage_mb),
    ("mem_max_mb", .num s.mem_max_mb),
    ("requests_total", .num (s.requests_total : ℚ)),
    ("requests_new", optIntToJson s.requests_new),
    ("request_errors_total", .num (s.request_errors_total : ℚ)),
    ("request_errors_new", optIntToJson s.request_errors_new),
    ("connections", optNatToJson s.connections),
    ("latency_50p_ms", optNumToJson s.latency_50p_ms),
    ("latency_90p_ms", optNumToJson s.latency_90p_ms),
    ("latency_99p_ms", optNumToJson s.latency_99p_ms),
    ("requests_per_s", optNumToJson s.requests_per_s)]

/-- A `CHECKS` value as JSON. -/
def valToJson (v : Val) : Json :=
  match v with
  | .float q => .num q
  | .str s => .str s

/-- The `CHECKS` dict as JSON. -/
def checksToJson (checks : Checks) : Json :=
  .obj (checks.map (fun kv => (kv.1, valToJson kv.2)))

/-- Model of `save_results` (lines 667-671): the JSON payload written to the results
file. -/
def save_results (checks : Checks) (st : HarnessState) : Json :=
  .obj [("checks", checksToJson checks), ("stats", .arr (st.STATS.map asdict))]

/-- Key access in a JSON object: `suite['checks']` etc. on the renderer
side (`none` models Python's `KeyError`). -/
def jsonGet (j : Json) (key : String) : Option Json :=
  match j with
  | .obj fields => fields.lookup key
  | _ => none

/-- The top-level keys of a JSON object. -/
def jsonKeys (j : Json) : List String :=
  match j with
  | .obj fields => fields.map Prod.fst
  | _ => []

end Harness

namespace Render

open Harness (Val Checks)

/-- Model of `sorted(set().union(*(checks.keys() for checks in
per_impl_checks.values())))` in `render_checks` (line 71): the
lexicographically sorted union of all suites' check names. -/
def check_names (per_impl_checks : List (String × Checks)) : List String :=
  ((per_impl_checks.flatMap (fun nc => nc.2.map Prod.fst)).dedup).mergeSort
    (fun a b => decide (a ≤ b))

/-- Decimal exponent of a nonzero rational: the unique `e` with
`10 ^ e ≤ |q| < 10 ^ (e + 1)`. -/
def decExp (q : ℚ) : ℤ :=
  let e0 : ℤ := (Nat.log 10 q.num.natAbs : ℤ) - (Nat.log 10 q.den : ℤ)
  if |q| < (10 : ℚ) ^ e0 then e0 - 1 else e0

/-- Model of the `%.3g` formatting round-trip in `sanitize` (line 75): round to 3 significant
figures.  Python floats are idealised as exact rationals; `%.3g` rounds to
nearest (ties on the third significant digit rounded with Mathlib's
`round`). -/
def roundSig3 (q : ℚ) : ℚ :=
  if q = 0 then 0
  else
    let e : ℤ := decExp q - 2
    (round (q / (10 : ℚ) ^ e) : ℚ) * (10 : ℚ) ^ e

/-- Python `int()` on a float: truncation toward zero. -/
def pyInt (q : ℚ) : ℤ := q.num.tdiv q.den

/-- Decimal digits of a fractional part `0 ≤ f < 1` (fuel-bounded; exact
whenever the denominator of `f` divides a power of ten, as it does for
every `roundSig3` output). -/
def fracDigits : ℕ → ℚ → String
  | 0, _ => ""
  | fuel + 1, f =>
    if f = 0 then ""
    else
      let f10 := f * 10
      let d : ℤ := ⌊f10⌋
      toString d ++ fracDigits fuel (f10 - (d : ℚ))

/-- Python `str` on a float, idealised as a plain decimal rendering: sign,
integer part, `'.'`, fraction digits (a single `'0'` when the fraction is
empty, so that `str(12.0) = "12.0"` keeps its fractional part). -/
def floatToString (q : ℚ) : String :=
  let a := |q|
  let ip : ℤ := ⌊a⌋
  let fracStr := fracDigits a.den (a - (ip : ℚ))
  (if q < 0 then "-" else "") ++ toString ip ++ "." ++ (if fracStr = "" then "0" else fracStr)

/-- The inner function `sanitize` of `render_checks` (lines 73-77),
extended to the `None` that `.get` returns for a missing key
(`str(None) = "None"`): floats are rounded to 3 significant figures and
printed as an `int` when the rounded value is at least 100. -/
def sanitize (value : Option Val) : String :=
  match value with
  | none => "None"
  | some (.str s) => s
  | some (.float x) =>
    let value := roundSig3 x
    if 100 ≤ value then toString (pyInt value) else floatToString value

/-- The sanitized cell values of one `render_checks` table row (line 80):
one cell per suite name, `.get(check_name)` on that suite's checks. -/
def row_values (names : List String) (per_impl_checks : List (String × Checks))
    (check_name : String) : List String :=
  names.map (fun name => sanitize (((per_impl_checks.lookup name).getD []).lookup check_name))

/-- Model of `render_checks` (lines 66-83) as its list of emitted data
rows: one row `(check_name, cells)` per sorted check name, the cells
bold-wrapped exactly when `len(values) > 1 and len(set(values)) > 1`. -/
def render_checks (names : List String) (per_impl_checks : List (String × Checks)) :
    List (String × List String) :=
  (check_names per_impl_checks).map (fun check_name =>
    let values := row_values names per_impl_checks check_name
    (check_name,
      if 1 < values.length ∧ 1 < values.dedup.length then
        values.map (fun value => "**" ++ value ++ "**")
      else values))

/-- Model of `div_or_none` (lines 229-232).  For float arguments Python's falsiness
test `not denominator` is exactly `denominator == 0`; the `scale` keyword
argument (default 1) is passed explicitly here. -/
def div_or_none (numerator denominator : ℚ) (scale : ℚ) : Option ℚ :=
  if denominator = 0 then none
  else some (scale * numerator / denominator)

/-- A per-round stats row as the figure functions read it back from JSON.
Only the fields the `div_or_none`-based figures touch are modelled; the
figures read rows from index 2 on, where the delta fields are non-null. -/
structure StatsRow where
  cpu_new_s : ℚ
  mem_max_mb : ℚ
  requests_new : ℚ
  request_errors_new : ℚ
  requests_per_s : ℚ
deriving DecidableEq

/-- The data series one suite contributes to `errors_vs_connections_figure`
(lines 124-131): `stats[2:]` mapped through `div_or_none` with scale 100. -/
def errors_vs_connections_series (stats : List StatsRow) : List (Option ℚ) :=
  (stats.drop 2).map (fun s =>
    div_or_none s.request_errors_new (s.request_errors_new + s.requests_new) 100)

/-- The data series of `max_mem_usage_per_requests_figure` (lines 179-186). -/
def max_mem_usage_per_requests_series (stats : List StatsRow) : List (Option ℚ) :=
  (stats.drop 2).map (fun s => div_or_none s.mem_max_mb s.requests_per_s 1)

/-- The data series of `cpu_per_request_figure` (lines 199-206). -/
def cpu_per_request_series (stats : List StatsRow) : List (Option ℚ) :=
  (stats.drop 2).map (fun s => div_or_none s.cpu_new_s s.requests_new 1000)

end Render

namespace Harness

/-- Shared helper: the exact shape of the record `collect_stats` appends. -/
theorem collect_stats_spec (st : HarnessState) (ds : DockerStats) (message : String)
    (connections : Option ℕ) (l50 l90 l99 : Option ℚ) (rps : Option ℚ) :
    ∃ s : Stats,
      (collect_stats st ds message connections l50 l90 l99 rps).STATS = st.STATS ++ [s] ∧
      (collect_stats st ds message connections l50 l90 l99 rps).TOTAL_REQUESTS = st.TOTAL_REQUESTS ∧
      (collect_stats st ds message connections l50 l90 l99 rps).TOTAL_REQUEST_ERRORS
        = st.TOTAL_REQUEST_ERRORS ∧
      s.message = message ∧ s.connections = connections ∧ s.requests_per_s = rps ∧
      s.latency_50p_ms = l50 ∧ s.latency_90p_ms = l90 ∧ s.latency_99p_ms = l99 ∧
      s.cpu_total_s = (ds.cpu_total_usage : ℚ) / 1000 ^ 3 ∧
      s.requests_total = st.TOTAL_REQUESTS ∧
      s.request_errors_total = st.TOTAL_REQUEST_ERRORS ∧
      (st.STATS = [] → s.cpu_new_s = none ∧ s.requests_new = none ∧ s.request_errors_new = none) ∧
      (∀ prev, st.STATS.getLast? = some prev →
        s.cpu_new_s = some (s.cpu_total_s - prev.cpu_total_s) ∧
        s.requests_new = some (s.requests_total - prev.requests_total) ∧
        s.request_errors_new = some (s.request_errors_total - prev.request_errors_total)) := by
  unfold collect_stats
  cases h : st.STATS.getLast? with
  | none =>
    refine ⟨_, rfl, rfl, rfl, rfl, rfl, rfl, rfl, rfl, rfl, rfl, rfl, rfl,
      fun _ => ⟨rfl, rfl, rfl⟩, fun prev hprev => ?_⟩
    cases hprev
  | some prev =>
    refine ⟨_, rfl, rfl, rfl, rfl, rfl, rfl, rfl, rfl, rfl, rfl, rfl, rfl,
      fun hnil => ?_, fun prev' hprev' => ?_⟩
    · rw [hnil] at h
      simp at h
    · cases hprev'
      exact ⟨rfl, rfl, rfl⟩

/-- C1: every `collect_stats` invocation appends exactly one `Stats`
record; when `STATS` was empty beforehand its `cpu_new_s`, `requests_new`
and `request_errors_new` are `None`, and otherwise they equal the new
record's `cpu_total_s`, `requests_total` and `request_errors_total` minus
the same fields of the last previously appended record. -/
theorem collect_stats_delta_fields (st : HarnessState) (ds : DockerStats) (message : String)
    (connections : Option ℕ) (l50 l90 l99 : Option ℚ) (rps : Option ℚ) :
    ∃ s : Stats,
      (collect_stats st ds message connections l50 l90 l99 rps).STATS = st.STATS ++ [s] ∧
      (st.STATS = [] → s.cpu_new_s = none ∧ s.requests_new = none ∧ s.request_errors_new = none) ∧
      (∀ prev, st.STATS.getLast? = some prev →
        s.cpu_new_s = some (s.cpu_total_s - prev.cpu_total_s) ∧
        s.requests_new = some (s.requests_total - prev.requests_total) ∧
        s.request_errors_new = some (s.request_errors_total - prev.request_errors_total)) := by
  obtain ⟨s, happ, -, -, -, -, -, -, -, -, -, -, -, hnil, hlast⟩ :=
    collect_stats_spec st ds message connections l50 l90 l99 rps
  exact ⟨s, happ, hnil, hlast⟩

/-- Witness for C1 at a concrete empty-`STATS` state. -/
theorem collect_stats_delta_fields_witness :
    (collect_stats ⟨0, 0, []⟩ ⟨0, 0, 0⟩ "After startup" none none none none none).STATS.map
        (fun s => (s.cpu_new_s, s.requests_new, s.request_errors_new))
      = [(none, none, none)] := by
  obtain ⟨s, happ, hnil, -⟩ :=
    collect_stats_delta_fields ⟨0, 0, []⟩ ⟨0, 0, 0⟩ "After startup" none none none none none
  obtain ⟨h1, h2, h3⟩ := hnil rfl
  rw [happ]
  simp [h1, h2, h3]

/-- Shared helper: an association-list lookup misses when the key is not
among the mapped-out keys. -/
theorem lookup_eq_none_of_not_mem_keys {checks : Checks} {m : String}
    (h : m ∉ checks.map Prod.fst) : checks.lookup m = none := by
  induction checks with
  | nil => rfl
  | cons c cs ih =>
    simp only [List.map_cons, List.mem_cons, not_or] at h
    have hb : (m == c.1) = false := beq_eq_false_iff_ne.mpr h.1
    simp [List.lookup, hb, ih h.2]

/-- C7: `log_check` raises `AssertionError` when the message is already a
key of `CHECKS` (leaving the map untouched), and otherwise records the
value under the message while every other key keeps its previous value —
the results map never silently overwrites a recorded check. -/
theorem log_check_no_overwrite (checks : Checks) (message : String) (value : Val) :
    ((checks.map Prod.fst).contains message = true →
      log_check checks message value = .error ()) ∧
    ((checks.map Prod.fst).contains message = false →
      log_check checks message value = .ok (checks ++ [(message, value)]) ∧
      (checks ++ [(message, value)]).lookup message = some value ∧
      ∀ k, k ≠ message → (checks ++ [(message, value)]).lookup k = checks.lookup k) := by
  refine ⟨fun h => by unfold log_check; rw [h]; rfl,
    fun h => ⟨by unfold log_check; rw [h]; rfl, ?_, ?_⟩⟩
  · have hmem : message ∉ checks.map Prod.fst := by simp_all
    rw [List.lookup_append, lookup_eq_none_of_not_mem_keys hmem]
    simp [List.lookup]
  · intro k hk
    rw [List.lookup_append]
    have hone : List.lookup k [(message, value)] = none := by
      simp [List.lookup, beq_eq_false_iff_ne.mpr hk]
    rw [hone]
    cases checks.lookup k <;> rfl

/-- Witness for C7: recording a fresh key, then detecting the duplicate. -/
theorem log_check_no_overwrite_witness :
    log_check [] "Startup time (to start responding) secs" (.float 2) =
      .ok [("Startup time (to start responding) secs", .float 2)] ∧
    log_check [("Startup time (to start responding) secs", .float 2)]
      "Startup time (to start responding) secs" (.float 3) = .error () := by
  refine ⟨?_, ?_⟩
  · exact ((log_check_no_overwrite [] "Startup time (to start responding) secs"
      (.float 2)).2 (by decide)).1
  · exact (log_check_no_overwrite [("Startup time (to start responding) secs", .float 2)]
      "Startup time (to start responding) secs" (.float 3)).1 (by decide)

/-- C8: `save_results` produces a JSON object with exactly the two keys
`checks` (the `CHECKS` map) and `stats` (the recorded `Stats` records as
dicts, in append order), and this is the shape the report renderer reads
back through `suite['checks']` and `suite['stats']`. -/
theorem save_results_shape (checks : Checks) (st : HarnessState) :
    jsonKeys (save_results checks st) = ["checks", "stats"] ∧
    jsonGet (save_results checks st) "checks" = some (checksToJson checks) ∧
    jsonGet (save_results checks st) "stats" = some (.arr (st.STATS.map asdict)) ∧
    ∀ s ∈ st.STATS, jsonKeys (asdict s) =
      ["message", "cpu_total_s", "cpu_new_s", "mem_usage_mb", "mem_max_mb", "requests_total",
       "requests_new", "request_errors_total", "request_errors_new", "connections",
       "latency_50p_ms", "latency_90p_ms", "latency_99p_ms", "requests_per_s"] := by
  refine ⟨rfl, ?_, ?_, fun s _ => rfl⟩
  · simp [save_results, jsonGet, List.lookup]
  · simp [save_results, jsonGet, List.lookup]

/-- Witness for C8: the mandatory hypothesis-bearing conjunct applied to a
concrete one-record state. -/
theorem save_results_shape_witness :
    jsonKeys (asdict ⟨"After startup", 0, none, 0, 0, 0, none, 0, none, none, none, none,
        none, none⟩) =
      ["message", "cpu_total_s", "cpu_new_s", "mem_usage_mb", "mem_max_mb", "requests_total",
       "requests_new", "request_errors_total", "request_errors_new", "connections",
       "latency_50p_ms", "latency_90p_ms", "latency_99p_ms", "requests_per_s"] :=
  (save_results_shape []
    ⟨0, 0, [⟨"After startup", 0, none, 0, 0, 0, none, 0, none, none, none, none, none,
      none⟩]⟩).2.2.2 _ (by simp)

end Harness

namespace Render

open Harness (Val Checks)

/-- C10: `div_or_none` returns `None` exactly on a zero denominator and
`scale * numerator / denominator` otherwise, so every `div_or_none`-based
per-round ratio series of the report renderer is total: rounds whose
denominator is zero (no successful requests) contribute a `None` gap
instead of a division by zero. -/
theorem div_or_none_series_total (numerator denominator scale : ℚ)
    (stats : List StatsRow) :
    (denominator = 0 → div_or_none numerator denominator scale = none) ∧
    (denominator ≠ 0 →
      div_or_none numerator denominator scale = some (scale * numerator / denominator)) ∧
    errors_vs_connections_series stats = (stats.drop 2).map (fun s =>
      if s.request_errors_new + s.requests_new = 0 then none
      else some (100 * s.request_errors_new / (s.request_errors_new + s.requests_new))) ∧
    max_mem_usage_per_requests_series stats = (stats.drop 2).map (fun s =>
      if s.requests_per_s = 0 then none else some (1 * s.mem_max_mb / s.requests_per_s)) ∧
    cpu_per_request_series stats = (stats.drop 2).map (fun s =>
      if s.requests_new = 0 then none else some (1000 * s.cpu_new_s / s.requests_new)) := by
  refine ⟨fun h => by simp [div_or_none, h], fun h => by simp [div_or_none, h], rfl, rfl, rfl⟩

/-- Shared helper: `decExp` computes the decimal exponent, i.e. for
`q ≠ 0` we have `10 ^ decExp q ≤ |q| < 10 ^ (decExp q + 1)`. -/
theorem decExp_spec (q : ℚ) (hq : q ≠ 0) :
    (10 : ℚ) ^ decExp q ≤ |q| ∧ |q| < (10 : ℚ) ^ (decExp q + 1) := by
  have hnum : q.num ≠ 0 := Rat.num_ne_zero.mpr hq
  have ha0 : q.num.natAbs ≠ 0 := Int.natAbs_ne_zero.mpr hnum
  have hb0 : q.den ≠ 0 := q.den_pos.ne'
  set a := q.num.natAbs with ha
  set b := q.den with hb
  set La := Nat.log 10 a with hLa
  set Lb := Nat.log 10 b with hLb
  have hapos : (0 : ℚ) < (a : ℚ) := by exact_mod_cast Nat.pos_of_ne_zero ha0
  have hbpos : (0 : ℚ) < (b : ℚ) := by exact_mod_cast Nat.pos_of_ne_zero hb0
  have habs : |q| = (a : ℚ) / (b : ℚ) := by
    have h1 : ((a : ℕ) : ℚ) = |(q.num : ℚ)| := by
      rw [ha, Int.cast_natAbs, Int.cast_abs]
    have h2 : ((b : ℕ) : ℚ) = |(q.den : ℚ)| := by
      rw [abs_of_pos]
      exact_mod_cast hbpos
    rw [← Rat.num_div_den q, abs_div, h1, h2]
    rw [abs_abs]
  have hA1 : (10 : ℕ) ^ La ≤ a := Nat.pow_log_le_self 10 ha0
  have hA2 : a < (10 : ℕ) ^ (La + 1) := Nat.lt_pow_succ_log_self (by norm_num) a
  have hB1 : (10 : ℕ) ^ Lb ≤ b := Nat.pow_log_le_self 10 hb0
  have hB2 : b < (10 : ℕ) ^ (Lb + 1) := Nat.lt_pow_succ_log_self (by norm_num) b
  have hz : ∀ n : ℕ, (10 : ℚ) ^ (n : ℤ) = (((10 : ℕ) ^ n : ℕ) : ℚ) := fun n => by
    rw [zpow_natCast]
    push_cast
    ring
  have hupper : |q| < (10 : ℚ) ^ ((La : ℤ) - Lb + 1) := by
    rw [habs]
    have he : (10 : ℚ) ^ ((La : ℤ) - Lb + 1)
        = (((10 : ℕ) ^ (La + 1) : ℕ) : ℚ) / (((10 : ℕ) ^ Lb : ℕ) : ℚ) := by
      rw [← hz (La + 1), ← hz Lb, ← zpow_sub₀ (by norm_num : (10 : ℚ) ≠ 0)]
      congr 1
      push_cast
      ring
    rw [he, div_lt_div_iff₀ hbpos (by positivity)]
    have c1 : (a : ℚ) < (((10 : ℕ) ^ (La + 1) : ℕ) : ℚ) := by exact_mod_cast hA2
    have c2 : (((10 : ℕ) ^ Lb : ℕ) : ℚ) ≤ (b : ℚ) := by exact_mod_cast hB1
    calc (a : ℚ) * (((10 : ℕ) ^ Lb : ℕ) : ℚ)
        < (((10 : ℕ) ^ (La + 1) : ℕ) : ℚ) * (((10 : ℕ) ^ Lb : ℕ) : ℚ) :=
          mul_lt_mul_of_pos_right c1 (by positivity)
      _ ≤ (((10 : ℕ) ^ (La + 1) : ℕ) : ℚ) * (b : ℚ) :=
          mul_le_mul_of_nonneg_left c2 (by positivity)
  have hlower : (10 : ℚ) ^ ((La : ℤ) - Lb - 1) < |q| := by
    rw [habs]
    have he : (10 : ℚ) ^ ((La : ℤ) - Lb - 1)
        = (((10 : ℕ) ^ La : ℕ) : ℚ) / (((10 : ℕ) ^ (Lb + 1) : ℕ) : ℚ) := by
      rw [← hz La, ← hz (Lb + 1), ← zpow_sub₀ (by norm_num : (10 : ℚ) ≠ 0)]
      congr 1
      push_cast
      ring
    rw [he, div_lt_div_iff₀ (by positivity) hbpos]
    have c1 : (((10 : ℕ) ^ La : ℕ) : ℚ) ≤ (a : ℚ) := by exact_mod_cast hA1
    have c2 : (b : ℚ) < (((10 : ℕ) ^ (Lb + 1) : ℕ) : ℚ) := by exact_mod_cast hB2
    calc (((10 : ℕ) ^ La : ℕ) : ℚ) * (b : ℚ)
        ≤ (a : ℚ) * (b : ℚ) := mul_le_mul_of_nonneg_right c1 (le_of_lt hbpos)
      _ < (a : ℚ) * (((10 : ℕ) ^ (Lb + 1) : ℕ) : ℚ) := mul_lt_mul_of_pos_left c2 hapos
  have hd : decExp q
      = if |q| < (10 : ℚ) ^ ((La : ℤ) - Lb) then (La : ℤ) - Lb - 1 else (La : ℤ) - Lb := rfl
  rw [hd]
  split_ifs with hc
  · refine ⟨le_of_lt hlower, ?_⟩
    rw [show (La : ℤ) - Lb - 1 + 1 = (La : ℤ) - Lb by ring]
    exact hc
  · refine ⟨not_lt.mp hc, hupper⟩

/-- Shared helper: `roundSig3` returns `m * 10 ^ (decExp q - 2)` with
`|m| ≤ 1000` (three significant decimal digits) and differs from the
input by at most half a unit in the last significant place. -/
theorem roundSig3_spec (q : ℚ) (hq : q ≠ 0) :
    roundSig3 q = ((round (q / (10 : ℚ) ^ (decExp q - 2)) : ℤ) : ℚ) * (10 : ℚ) ^ (decExp q - 2) ∧
    |(round (q / (10 : ℚ) ^ (decExp q - 2)) : ℤ)| ≤ 1000 ∧
    |roundSig3 q - q| ≤ (10 : ℚ) ^ (decExp q - 2) / 2 := by
  set e := decExp q - 2 with he
  have hpe : (0 : ℚ) < (10 : ℚ) ^ e := zpow_pos (by norm_num) e
  have hne : (10 : ℚ) ^ e ≠ 0 := hpe.ne'
  set x := q / (10 : ℚ) ^ e with hx
  set m := round x with hm
  have hdef : roundSig3 q = (m : ℚ) * (10 : ℚ) ^ e := by
    rw [roundSig3, if_neg hq]
  have hbound : |x - (m : ℚ)| ≤ 1 / 2 := abs_sub_round x
  refine ⟨hdef, ?_, ?_⟩
  · have hxlt : |x| < 1000 := by
      rw [hx, abs_div, abs_of_pos hpe, div_lt_iff₀ hpe]
      have h2 := (decExp_spec q hq).2
      calc |q| < (10 : ℚ) ^ (decExp q + 1) := h2
        _ = 1000 * (10 : ℚ) ^ e := by
          rw [show decExp q + 1 = 3 + (decExp q - 2) by ring, zpow_add₀ (by norm_num : (10 : ℚ) ≠ 0)]
          norm_num
    have hmx : |(m : ℚ)| ≤ |x| + 1 / 2 := by
      have h3 : |(m : ℚ)| ≤ |x| + |x - (m : ℚ)| := by
        have h4 : (m : ℚ) = x - (x - (m : ℚ)) := by ring
        calc |(m : ℚ)| = |x - (x - (m : ℚ))| := by rw [← h4]
          _ ≤ |x| + |x - (m : ℚ)| := abs_sub x (x - (m : ℚ))
      linarith [hbound]
    have hql : |(m : ℚ)| < 1000 + 1 / 2 := by linarith
    by_contra hcon
    have h5 : (1001 : ℤ) ≤ |m| := by omega
    have h6 : (1001 : ℚ) ≤ |(m : ℚ)| := by
      rw [← Int.cast_abs]
      exact_mod_cast h5
    linarith
  · rw [hdef]
    have hqx : q = x * (10 : ℚ) ^ e := by
      rw [hx, div_mul_cancel₀ _ hne]
    calc |(m : ℚ) * (10 : ℚ) ^ e - q| = |(m : ℚ) - x| * (10 : ℚ) ^ e := by
          rw [hqx, ← sub_mul, abs_mul, abs_of_pos hpe]
      _ ≤ 1 / 2 * (10 : ℚ) ^ e := by
        have h7 : |(m : ℚ) - x| ≤ 1 / 2 := by
          rw [abs_sub_comm]
          exact hbound
        exact mul_le_mul_of_nonneg_right h7 (le_of_lt hpe)
      _ = (10 : ℚ) ^ e / 2 := by ring

/-- Shared helper: a `roundSig3` output that is at least 100 is an
integer — three significant figures at or above 100 leave no fractional
part. -/
theorem roundSig3_int_of_ge_100 {q : ℚ} (h : 100 ≤ roundSig3 q) :
    ∃ z : ℤ, roundSig3 q = (z : ℚ) := by
  by_cases hq : q = 0
  · rw [hq] at h
    rw [show roundSig3 0 = 0 by rw [roundSig3]; simp] at h
    norm_num at h
  · obtain ⟨hdef, hmb, -⟩ := roundSig3_spec q hq
    rw [hdef] at h ⊢
    set e := decExp q - 2 with he
    set m := round (q / (10 : ℚ) ^ e) with hm
    have hpe : (0 : ℚ) < (10 : ℚ) ^ e := zpow_pos (by norm_num) e
    rcases le_or_lt 0 e with hepos | heneg
    · lift e to ℕ using hepos with k hk
      refine ⟨m * 10 ^ k, ?_⟩
      push_cast
      rw [zpow_natCast]
    · have hz2 : (10 : ℚ) ^ (2 - e) = 100 / (10 : ℚ) ^ e := by
        rw [zpow_sub₀ (by norm_num : (10 : ℚ) ≠ 0)]
        norm_num
      have hmq : (1000 : ℚ) ≤ (m : ℚ) := by
        have hd : (100 : ℚ) / (10 : ℚ) ^ e ≤ (m : ℚ) := (div_le_iff₀ hpe).mpr h
        have h1 : (10 : ℚ) ^ (2 - e) ≤ (m : ℚ) := by rw [hz2]; exact hd
        have h2 : (1000 : ℚ) ≤ (10 : ℚ) ^ (2 - e) := by
          have h3 : (3 : ℤ) ≤ 2 - e := by omega
          calc (1000 : ℚ) = (10 : ℚ) ^ (3 : ℤ) := by norm_num
            _ ≤ (10 : ℚ) ^ (2 - e) := zpow_le_zpow_right₀ (by norm_num) h3
        linarith
      have hmle : (m : ℚ) ≤ 1000 := by
        have h4 : (m : ℤ) ≤ 1000 := le_trans (le_abs_self m) hmb
        exact_mod_cast h4
      have hm1000 : (m : ℚ) = 1000 := le_antisymm hmle hmq
      have hee : e = -1 := by
        by_contra hne2
        have hle : e ≤ -2 := by omega
        have h5 : (10 : ℚ) ^ e ≤ (10 : ℚ) ^ (-2 : ℤ) := zpow_le_zpow_right₀ (by norm_num) hle
        have h6 : (m : ℚ) * (10 : ℚ) ^ e ≤ 1000 * (10 : ℚ) ^ (-2 : ℤ) := by
          rw [hm1000]
          exact mul_le_mul_of_nonneg_left h5 (by norm_num)
        have h7 : (1000 : ℚ) * (10 : ℚ) ^ (-2 : ℤ) = 10 := by norm_num
        linarith
      refine ⟨100, ?_⟩
      rw [hm1000, hee]
      norm_num

/-- Shared helper: the integer-printing branch of `sanitize`: a float whose
3-significant-figure rounding is at least 100 is printed via `int()`,
without a fractional part. -/
theorem sanitize_float_int_of_ge_100 {x : ℚ} (h : 100 ≤ roundSig3 x) :
    ∃ z : ℤ, roundSig3 x = (z : ℚ) ∧ sanitize (some (.float x)) = toString z := by
  obtain ⟨z, hz⟩ := roundSig3_int_of_ge_100 h
  refine ⟨z, hz, ?_⟩
  simp only [sanitize]
  rw [if_pos h, hz]
  congr 1
  rw [pyInt, Rat.num_intCast, Rat.den_intCast]
  norm_num

/-- Shared helper: the float-printing branch of `sanitize`. -/
theorem sanitize_float_of_lt_100 {x : ℚ} (h : ¬ 100 ≤ roundSig3 x) :
    sanitize (some (.float x)) = floatToString (roundSig3 x) := by
  simp only [sanitize]
  rw [if_neg h]

/-- Shared helper: `check_names` is sorted (Python `sorted`). -/
theorem check_names_sorted (per : List (String × Checks)) :
    List.Sorted (fun a b : String => a ≤ b) (check_names per) := by
  have h := List.sorted_mergeSort
    (fun a b c (hab : decide (a ≤ b) = true) (hbc : decide (b ≤ c) = true) =>
      decide_eq_true_iff.mpr (le_trans (decide_eq_true_iff.mp hab) (decide_eq_true_iff.mp hbc)))
    (fun a b : String => by rcases le_total a b with h | h <;> simp [h])
    ((per.flatMap (fun nc => nc.2.map Prod.fst)).dedup)
  exact List.Pairwise.imp (fun hab => decide_eq_true_iff.mp hab) h

/-- Shared helper: `check_names` has no duplicates (Python `set`). -/
theorem check_names_nodup (per : List (String × Checks)) : (check_names per).Nodup := by
  unfold check_names
  exact (List.mergeSort_perm _ _).nodup_iff.mpr (List.nodup_dedup _)

/-- Shared helper: membership in `check_names` is membership in some
suite's checks (Python `set().union(*...)`). -/
theorem check_names_mem (per : List (String × Checks)) (n : String) :
    n ∈ check_names per ↔ ∃ e ∈ per, n ∈ e.2.map Prod.fst := by
  unfold check_names
  rw [(List.mergeSort_perm _ _).mem_iff, List.mem_dedup, List.mem_flatMap]

/-- Shared helper: `len(set(values)) > 1` says two values differ. -/
theorem one_lt_dedup_length_iff (l : List String) :
    1 < l.dedup.length ↔ ∃ a ∈ l, ∃ b ∈ l, a ≠ b := by
  constructor
  · intro h
    cases hd : l.dedup with
    | nil =>
      rw [hd] at h
      simp at h
    | cons a t =>
      cases t with
      | nil =>
        rw [hd] at h
        simp at h
      | cons b t2 =>
        have hnd : (a :: b :: t2).Nodup := hd ▸ List.nodup_dedup l
        have hab : a ≠ b := by
          have hno := List.nodup_cons.mp hnd
          intro he
          subst he
          exact hno.1 (List.mem_cons_self a t2)
        have haL : a ∈ l := by
          rw [← List.mem_dedup, hd]
          simp
        have hbL : b ∈ l := by
          rw [← List.mem_dedup, hd]
          simp
        exact ⟨a, haL, b, hbL, hab⟩
  · rintro ⟨a, ha, b, hb, hab⟩
    by_contra hle
    push_neg at hle
    have ha' : a ∈ l.dedup := List.mem_dedup.mpr ha
    have hb' : b ∈ l.dedup := List.mem_dedup.mpr hb
    cases hd : l.dedup with
    | nil =>
      rw [hd] at ha'
      simp at ha'
    | cons x t =>
      cases t with
      | cons y t2 =>
        rw [hd] at hle
        simp at hle
      | nil =>
        rw [hd] at ha' hb'
        simp at ha' hb'
        exact hab (ha'.trans hb'.symm)

/-- C9: `render_checks` emits exactly one data row per check name in the
sorted, duplicate-free union of all suites' check names; every float value
is rounded to 3 significant figures (`roundSig3` output is `m * 10 ^ e`
with `|m| ≤ 1000`, within half a unit of the last significant place) and
is rendered without a fractional part (via `int()`) when the rounded value
is at least 100; and a row's values are bold-marked exactly when there is
more than one suite and the sanitized values are not all equal. -/
theorem render_checks_spec (names : List String) (per : List (String × Checks))
    (hn : names.Perm (per.map Prod.fst)) :
    ((render_checks names per).map Prod.fst = check_names per) ∧
    List.Sorted (fun a b : String => a ≤ b) (check_names per) ∧
    (check_names per).Nodup ∧
    (∀ n, n ∈ check_names per ↔ ∃ e ∈ per, n ∈ e.2.map Prod.fst) ∧
    (∀ x : ℚ, x ≠ 0 →
      |roundSig3 x - x| ≤ (10 : ℚ) ^ (decExp x - 2) / 2 ∧
      ∃ m : ℤ, |m| ≤ 1000 ∧ roundSig3 x = (m : ℚ) * (10 : ℚ) ^ (decExp x - 2)) ∧
    (∀ x : ℚ, 100 ≤ roundSig3 x →
      ∃ z : ℤ, roundSig3 x = (z : ℚ) ∧ sanitize (some (.float x)) = toString z) ∧
    (∀ x : ℚ, ¬ 100 ≤ roundSig3 x →
      sanitize (some (.float x)) = floatToString (roundSig3 x)) ∧
    (∀ cn, cn ∈ check_names per →
      ((cn, (row_values names per cn).map (fun v => "**" ++ v ++ "**"))
          ∈ render_checks names per
        ↔ 1 < names.length ∧
          ∃ a ∈ row_values names per cn, ∃ b ∈ row_values names per cn, a ≠ b)) := by
  refine ⟨?_, check_names_sorted per, check_names_nodup per, check_names_mem per, ?_, ?_, ?_, ?_⟩
  · unfold render_checks
    rw [List.map_map]
    have hid : (Prod.fst ∘ fun check_name =>
        (check_name,
          if 1 < (row_values names per check_name).length ∧
              1 < (row_values names per check_name).dedup.length then
            List.map (fun value => "**" ++ value ++ "**") (row_values names per check_name)
          else row_values names per check_name)) = fun cn : String => cn := by
      funext cn
      rfl
    rw [hid]
    exact List.map_id (check_names per)
  · intro x hx
    obtain ⟨hdef, hmb, hdist⟩ := roundSig3_spec x hx
    exact ⟨hdist, round (x / (10 : ℚ) ^ (decExp x - 2)), hmb, hdef⟩
  · intro x hx
    exact sanitize_float_int_of_ge_100 hx
  · intro x hx
    exact sanitize_float_of_lt_100 hx
  · intro cn hcn
    have hlen : (row_values names per cn).length = names.length := List.length_map _ _
    constructor
    · intro hmem
      obtain ⟨cn', hcn', heq⟩ := List.mem_map.mp hmem
      rw [Prod.ext_iff] at heq
      obtain ⟨hfst, hsnd⟩ := heq
      dsimp only at hfst hsnd
      subst hfst
      by_cases hC : 1 < (row_values names per cn').length ∧
          1 < (row_values names per cn').dedup.length
      · exact ⟨hlen ▸ hC.1, (one_lt_dedup_length_iff _).mp hC.2⟩
      · rw [if_neg hC] at hsnd
        exfalso
        have hper : per ≠ [] := by
          obtain ⟨e, he, -⟩ := (check_names_mem per cn').mp hcn
          intro h0
          rw [h0] at he
          simp at he
        have hnames : names ≠ [] := by
          intro h0
          have hl := hn.length_eq
          rw [h0, List.length_map] at hl
          exact hper (List.eq_nil_of_length_eq_zero hl.symm)
        obtain ⟨v, rest, hv⟩ : ∃ v rest, row_values names per cn' = v :: rest := by
          cases hV : row_values names per cn' with
          | nil =>
            exfalso
            rw [hV] at hlen
            cases hns : names with
            | nil => exact hnames hns
            | cons a t =>
              rw [hns] at hlen
              simp at hlen
          | cons v rest => exact ⟨v, rest, rfl⟩
        rw [hv, List.map_cons] at hsnd
        injection hsnd with hhead htail
        have hlen2 : v.length = ("**" ++ v ++ "**").length := by rw [← hhead]
        rw [String.length_append, String.length_append] at hlen2
        have h2 : ("**" : String).length = 2 := rfl
        omega
    · rintro ⟨h1, hdist⟩
      have hC : 1 < (row_values names per cn).length ∧
          1 < (row_values names per cn).dedup.length :=
        ⟨hlen ▸ h1, (one_lt_dedup_length_iff _).mpr hdist⟩
      refine List.mem_map.mpr ⟨cn, hcn, ?_⟩
      dsimp only
      rw [if_pos hC]

/-- Witness for C9: two suites sharing check name `C` with different
string values get a bolded row, and the float 123 is printed as the
integer string `123`. -/
theorem render_checks_spec_witness :
    ("C", ["**Good**", "**Bad**"]) ∈ render_checks ["a", "b"]
        [("a", [("C", Val.str "Good")]), ("b", [("C", Val.str "Bad")])] ∧
    sanitize (some (Val.float 123)) = "123" := by
  have hperm : (["a", "b"] : List String).Perm
      ([("a", [("C", Val.str "Good")]), ("b", [("C", Val.str "Bad")])].map Prod.fst) :=
    List.Perm.refl _
  have hspec := render_checks_spec ["a", "b"]
    [("a", [("C", Val.str "Good")]), ("b", [("C", Val.str "Bad")])] hperm
  have hC : "C" ∈ check_names [("a", [("C", Val.str "Good")]), ("b", [("C", Val.str "Bad")])] :=
    (hspec.2.2.2.1 "C").mpr ⟨("a", [("C", Val.str "Good")]), by simp, by simp⟩
  constructor
  · refine (hspec.2.2.2.2.2.2.2 "C" hC).mpr ⟨by norm_num, "Good", ?_, "Bad", ?_, by decide⟩
    · show "Good" ∈ row_values ["a", "b"]
        [("a", [("C", Val.str "Good")]), ("b", [("C", Val.str "Bad")])] "C"
      decide
    · show "Bad" ∈ row_values ["a", "b"]
        [("a", [("C", Val.str "Good")]), ("b", [("C", Val.str "Bad")])] "C"
      decide
  · have hlog : Nat.log 10 123 = 2 :=
      Nat.log_eq_of_pow_le_of_lt_pow (by norm_num) (by norm_num)
    have hde : decExp (123 : ℚ) = 2 := by
      unfold decExp
      norm_num [hlog]
    have hround : round (123 : ℚ) = 123 := by
      rw [show (123 : ℚ) = ((123 : ℤ) : ℚ) by norm_num]
      exact round_intCast 123
    have hr : roundSig3 (123 : ℚ) = 123 := by
      rw [roundSig3, if_neg (by norm_num : (123 : ℚ) ≠ 0), hde]
      norm_num [hround]
    have h123 : 100 ≤ roundSig3 (123 : ℚ) := by
      rw [hr]
      norm_num
    obtain ⟨z, hz1, hz2⟩ := hspec.2.2.2.2.2.1 123 h123
    have hz123 : z = 123 := by
      have hcast : (z : ℚ) = 123 := by rw [← hz1, hr]
      exact_mod_cast hcast
    rw [hz2, hz123]
    rfl

/-- Witness for C10: a zero-denominator round yields a gap, a nonzero one
the scaled ratio. -/
theorem div_or_none_series_total_witness :
    div_or_none 5 0 100 = none ∧ div_or_none 1 2 100 = some (100 * 1 / 2) :=
  ⟨(div_or_none_series_total 5 0 100 []).1 rfl,
   (div_or_none_series_total 1 2 100 []).2.1 (by norm_num)⟩

end Render

namespace Harness

/-- Unfolding lemma: `match_line` on the empty line list. -/
theorem match_line_nil (pat : Pat) : match_line pat [] = none := rfl

/-- Unfolding lemma: `match_line` on a line list head. -/
theorem match_line_cons (pat : Pat) (l : String) (ls : List String) :
    match_line pat (l :: ls) =
      match fullmatch pat l with
      | some m => some m
      | none => match_line pat ls := rfl

/-- Unfolding lemma: `match_line_steps` on the empty line list. -/
theorem match_line_steps_nil (pat : Pat) : match_line_steps pat [] = 0 := rfl

/-- Unfolding lemma: `match_line_steps` on a line list head. -/
theorem match_line_steps_cons (pat : Pat) (l : String) (ls : List String) :
    match_line_steps pat (l :: ls) =
      match fullmatch pat l with
      | some _ => 1
      | none => 1 + match_line_steps pat ls := rfl

/-- C5: `match_line` returns the `re.fullmatch` result of the first line, in
list order, that fully matches the pattern (every earlier line fails),
raises `ValueError` (returns `none`) exactly when no line fully matches,
and examines each line at most once (its `re.fullmatch` call count is
bounded by the number of lines). -/
theorem match_line_first_match (pat : Pat) (lines : List String) :
    (match_line pat lines = none ↔ ∀ l ∈ lines, fullmatch pat l = none) ∧
    (∀ m, match_line pat lines = some m →
      ∃ pre l' post, lines = pre ++ l' :: post ∧ fullmatch pat l' = some m ∧
        ∀ l'' ∈ pre, fullmatch pat l'' = none) ∧
    (∀ pre l' post m, lines = pre ++ l' :: post → fullmatch pat l' = some m →
      (∀ l'' ∈ pre, fullmatch pat l'' = none) → match_line pat lines = some m) ∧
    match_line_steps pat lines ≤ lines.length := by
  induction lines with
  | nil =>
    refine ⟨?_, ?_, ?_, ?_⟩
    · simp [match_line_nil]
    · intro m h
      cases h
    · intro pre l' post m heq
      cases pre <;> cases heq
    · simp [match_line_steps_nil]
  | cons l ls ih =>
    obtain ⟨ih1, ih2, ih3, ih4⟩ := ih
    cases hf : fullmatch pat l with
    | some m0 =>
      refine ⟨?_, ?_, ?_, ?_⟩
      · constructor
        · intro h
          rw [match_line_cons, hf] at h
          cases h
        · intro hall
          exact absurd (hall l (by simp)) (by simp [hf])
      · intro m hm
        rw [match_line_cons, hf] at hm
        cases hm
        exact ⟨[], l, ls, rfl, hf, by simp⟩
      · intro pre l' post m heq hl' hpre
        cases pre with
        | nil =>
          cases heq
          rw [match_line_cons, hf]
          rw [hf] at hl'
          exact hl'
        | cons p ps =>
          cases heq
          exact absurd hf (by simp [hpre l (by simp)])
      · rw [match_line_steps_cons, hf]
        simp
    | none =>
      refine ⟨?_, ?_, ?_, ?_⟩
      · rw [match_line_cons, hf]
        constructor
        · intro h
          intro l' hl'
          rcases List.mem_cons.mp hl' with h' | h'
          · rw [h']; exact hf
          · exact ih1.mp h l' h'
        · intro hall
          exact ih1.mpr (fun l' hl' => hall l' (by simp [hl']))
      · intro m hm
        rw [match_line_cons, hf] at hm
        obtain ⟨pre, l', post, heq, hl', hpre⟩ := ih2 m hm
        refine ⟨l :: pre, l', post, by rw [heq]; rfl, hl', ?_⟩
        intro l'' hl''
        rcases List.mem_cons.mp hl'' with h' | h'
        · rw [h']; exact hf
        · exact hpre l'' h'
      · intro pre l' post m heq hl' hpre
        cases pre with
        | nil =>
          cases heq
          rw [hf] at hl'
          cases hl'
        | cons p ps =>
          cases heq
          rw [match_line_cons, hf]
          exact ih3 ps l' post m rfl hl' (fun l'' h => hpre l'' (by simp [h]))
      · rw [match_line_steps_cons, hf]
        simp only [List.length_cons]
        calc 1 + match_line_steps pat ls ≤ 1 + ls.length := Nat.add_le_add_left ih4 1
        _ = ls.length + 1 := Nat.add_comm 1 ls.length

/-- Shared helper: a successful `run_benchmark` appends exactly one record
whose `connections` field is the round's connection count. -/
theorem run_benchmark_ok_connections {st st' : HarnessState} {ds : DockerStats} {c : ℕ}
    {lines : List String} (h : run_benchmark st ds c lines = .ok st') :
    st'.STATS.map (fun s => s.connections) =
      st.STATS.map (fun s => s.connections) ++ [some c] := by
  unfold run_benchmark at h
  cases hp : parse_bench_output lines with
  | error e =>
    rw [hp] at h
    cases h
  | ok pr =>
    rw [hp] at h
    cases h
    obtain ⟨s, happ, -, -, -, hconn, -⟩ :=
      collect_stats_spec
        { st with
          TOTAL_REQUESTS := st.TOTAL_REQUESTS + (pr.requests_new - pr.request_errors_new)
          TOTAL_REQUEST_ERRORS :=
            st.TOTAL_REQUEST_ERRORS + (pr.request_errors_new + pr.other_errors_new) }
        ds "Bench" (some c) (some pr.latency_50p_ms) (some pr.latency_90p_ms)
        (some pr.latency_99p_ms)
        (some (((pr.requests_new - pr.request_errors_new : ℤ) : ℚ) / (duration_s : ℚ)))
    rw [happ]
    simp [hconn]

/-- Unfolding lemma: `bench_loop` on the empty round list. -/
theorem bench_loop_nil (io : ℕ → DockerStats × List String) (st : HarnessState) (i : ℕ) :
    bench_loop io st [] i = .ok st := rfl

/-- Unfolding lemma: `bench_loop` on a round list head. -/
theorem bench_loop_cons (io : ℕ → DockerStats × List String) (st : HarnessState)
    (c : ℕ) (cs : List ℕ) (i : ℕ) :
    bench_loop io st (c :: cs) i =
      match run_benchmark st (io i).1 c (io i).2 with
      | .error e => .error e
      | .ok st' => bench_loop io st' cs (i + 1) := rfl

/-- Shared helper: a fully successful benchmark loop appends one record per
round, carrying the round's connection count, in list order. -/
theorem bench_loop_connections (io : ℕ → DockerStats × List String) :
    ∀ (cs : List ℕ) (st st' : HarnessState) (i : ℕ),
      bench_loop io st cs i = .ok st' →
      st'.STATS.map (fun s => s.connections) =
        st.STATS.map (fun s => s.connections) ++ cs.map (fun c => some c) := by
  intro cs
  induction cs with
  | nil =>
    intro st st' i h
    rw [bench_loop_nil] at h
    cases h
    simp
  | cons c cs ih =>
    intro st st' i h
    rw [bench_loop_cons] at h
    cases hr : run_benchmark st (io i).1 c (io i).2 with
    | error e =>
      rw [hr] at h
      cases h
    | ok st'' =>
      rw [hr] at h
      rw [ih st'' st' (i + 1) h, run_benchmark_ok_connections hr]
      simp

/-- Shared helper: `run_benchmark` succeeds whenever the wrk output parses. -/
theorem run_benchmark_isOk {lines : List String}
    (h : (parse_bench_output lines).isOk = true) (st : HarnessState) (ds : DockerStats)
    (c : ℕ) : ∃ st', run_benchmark st ds c lines = .ok st' := by
  unfold run_benchmark
  cases hp : parse_bench_output lines with
  | error e =>
    rw [hp] at h
    cases h
  | ok pr => exact ⟨_, rfl⟩

/-- Shared helper: the benchmark loop succeeds when every round's wrk
output parses. -/
theorem bench_loop_isOk (io : ℕ → DockerStats × List String)
    (h : ∀ i, (parse_bench_output (io i).2).isOk = true) :
    ∀ (cs : List ℕ) (st : HarnessState) (i : ℕ), ∃ st', bench_loop io st cs i = .ok st' := by
  intro cs
  induction cs with
  | nil => exact fun st i => ⟨st, rfl⟩
  | cons c cs ih =>
    intro st i
    obtain ⟨st'', hr⟩ := run_benchmark_isOk (h i) st (io i).1 c
    obtain ⟨st', hl⟩ := ih st'' (i + 1)
    refine ⟨st', ?_⟩
    rw [bench_loop_cons, hr]
    exact hl

/-- C6: with benchmarking enabled, `test_image` runs exactly 16 benchmark
rounds with connection counts 1, 1, 1, 1, 1, 2, 4, 8, 16, 32, 64, 128,
256, 512, 1024, 2048, in that order (one `Stats` record is appended per
round, carrying that round's connection count); with `--no-bench` the
sweep is empty and no benchmark round runs. -/
theorem test_image_connection_sweep (st st' : HarnessState)
    (io : ℕ → DockerStats × List String) :
    connection_range true = [1, 1, 1, 1, 1, 2, 4, 8, 16, 32, 64, 128, 256, 512, 1024, 2048] ∧
    (connection_range true).length = 16 ∧
    connection_range false = [] ∧
    test_image_bench st false io = .ok st ∧
    (test_image_bench st true io = .ok st' →
      st'.STATS.map (fun s => s.connections) = st.STATS.map (fun s => s.connections) ++
        [some 1, some 1, some 1, some 1, some 1, some 2, some 4, some 8, some 16, some 32,
         some 64, some 128, some 256, some 512, some 1024, some 2048]) := by
  refine ⟨rfl, rfl, rfl, rfl, fun h => ?_⟩
  have hc := bench_loop_connections io (connection_range true) st st' 0 h
  simpa using hc

/-- Witness for C6: a concrete 16-round sweep over parseable wrk output
records exactly the sixteen connection counts; with `bench = false` the
state is untouched. -/
theorem test_image_connection_sweep_witness :
    test_image_bench ⟨0, 0, []⟩ false (fun _ => (⟨0, 0, 0⟩, wrkOutput0)) = .ok ⟨0, 0, []⟩ ∧
    (test_image_bench ⟨0, 0, []⟩ true (fun _ => (⟨0, 0, 0⟩, wrkOutput0))).toOption.map
        (fun st' => st'.STATS.map (fun s => s.connections))
      = some [some 1, some 1, some 1, some 1, some 1, some 2, some 4, some 8, some 16, some 32,
          some 64, some 128, some 256, some 512, some 1024, some 2048] := by
  constructor
  · exact (test_image_connection_sweep ⟨0, 0, []⟩ ⟨0, 0, []⟩
      (fun _ => (⟨0, 0, 0⟩, wrkOutput0))).2.2.2.1
  · have hp : (parse_bench_output wrkOutput0).isOk = true := by decide
    obtain ⟨st', hok⟩ := bench_loop_isOk (fun _ => (⟨0, 0, 0⟩, wrkOutput0))
      (fun _ => hp) (connection_range true) ⟨0, 0, []⟩ 0
    have hmap := (test_image_connection_sweep ⟨0, 0, []⟩ st'
      (fun _ => (⟨0, 0, 0⟩, wrkOutput0))).2.2.2.2 hok
    rw [show test_image_bench ⟨0, 0, []⟩ true (fun _ => (⟨0, 0, 0⟩, wrkOutput0))
        = bench_loop (fun _ => (⟨0, 0, 0⟩, wrkOutput0)) ⟨0, 0, []⟩ (connection_range true) 0
      from rfl, hok]
    simp only [Except.toOption]
    simp [hmap]

/-- Shared helper: the concrete wrk output parses to 1ms latencies, 100
requests and no errors. -/
theorem parse_wrkOutput0 : parse_bench_output wrkOutput0 = .ok ⟨1, 1, 1, (100 : ℤ), 0, 0⟩ := by
  have h50 : match_line (latencyPat 50) wrkOutput0 = some ["1", "m"] := by decide
  have h90 : match_line (latencyPat 90) wrkOutput0 = some ["1", "m"] := by decide
  have h99 : match_line (latencyPat 99) wrkOutput0 = some ["1", "m"] := by decide
  have hreq : match_line requestsPat wrkOutput0 = some ["100"] := by decide
  have hnon : match_line non2xxPat wrkOutput0 = none := by decide
  have hsock : match_line socketPat wrkOutput0 = none := by decide
  have hpf : parseFloat "1" = some (1 : ℚ) := by
    have hd : splitOnDot "1".data = [['1']] := by decide
    have hid : isDigits ['1'] = true := by decide
    have hne : (String.mk ['1']).isEmpty = false := by decide
    have hnod : natOfDigits (String.mk ['1']) = 1 := by decide
    simp [parseFloat, hd, hid, hne, hnod]
  have hlat : ∀ p, match_line (latencyPat p) wrkOutput0 = some ["1", "m"] →
      match_latency wrkOutput0 p = .ok 1 := by
    intro p hp
    simp [match_latency, hp, hpf]
  have hn100 : natOfDigits "100" = 100 := by decide
  simp [parse_bench_output, hlat 50 h50, hlat 90 h90, hlat 99 h99, hreq, hnon, hsock, hn100]
  rfl

/-- C2: for a benchmark round whose parsed wrk output reports `R` total
requests, `E` non-2xx-or-3xx responses and `S` total socket errors,
`run_benchmark` increases `TOTAL_REQUESTS` by exactly `R - E`, increases
`TOTAL_REQUEST_ERRORS` by exactly `E + S`, and records
`requests_per_s = (R - E) / 10`, where 10 is the fixed round duration in
seconds (`duration_s`). -/
theorem run_benchmark_totals (st : HarnessState) (ds : DockerStats) (conn : ℕ)
    (lines : List String) (pr : BenchParse)
    (h : parse_bench_output lines = .ok pr) :
    duration_s = 10 ∧
    ∃ st' s, run_benchmark st ds conn lines = .ok st' ∧
      st'.STATS = st.STATS ++ [s] ∧
      st'.TOTAL_REQUESTS = st.TOTAL_REQUESTS + (pr.requests_new - pr.request_errors_new) ∧
      st'.TOTAL_REQUEST_ERRORS
        = st.TOTAL_REQUEST_ERRORS + (pr.request_errors_new + pr.other_errors_new) ∧
      s.requests_per_s = some (((pr.requests_new - pr.request_errors_new : ℤ) : ℚ) / 10) := by
  refine ⟨rfl, ?_⟩
  obtain ⟨s, happ, htr, hte, -, -, hrps, -⟩ :=
    collect_stats_spec
      { st with
        TOTAL_REQUESTS := st.TOTAL_REQUESTS + (pr.requests_new - pr.request_errors_new)
        TOTAL_REQUEST_ERRORS :=
          st.TOTAL_REQUEST_ERRORS + (pr.request_errors_new + pr.other_errors_new) }
      ds "Bench" (some conn) (some pr.latency_50p_ms) (some pr.latency_90p_ms)
      (some pr.latency_99p_ms)
      (some (((pr.requests_new - pr.request_errors_new : ℤ) : ℚ) / (duration_s : ℚ)))
  refine ⟨_, s, ?_, happ, htr, hte, ?_⟩
  · unfold run_benchmark
    rw [h]
  · rw [hrps]
    norm_num [duration_s]

/-- Witness for C2: starting from totals (5, 7), a parsed round with
R = 100, E = 0, S = 0 yields totals (105, 7) and 10 requests per second. -/
theorem run_benchmark_totals_witness :
    (run_benchmark ⟨5, 7, []⟩ ⟨0, 0, 0⟩ 4 wrkOutput0).toOption.map
        (fun st' => (st'.TOTAL_REQUESTS, st'.TOTAL_REQUEST_ERRORS,
          st'.STATS.map (fun s => s.requests_per_s)))
      = some ((105 : ℤ), (7 : ℤ), [some (10 : ℚ)]) := by
  obtain ⟨-, st', s, hok, happ, htr, hte, hrps⟩ :=
    run_benchmark_totals ⟨5, 7, []⟩ ⟨0, 0, 0⟩ 4 wrkOutput0 ⟨1, 1, 1, (100 : ℤ), 0, 0⟩
      parse_wrkOutput0
  rw [hok]
  simp only [Except.toOption]
  rw [Option.map]
  simp [happ, htr, hte, hrps]
  norm_num

/-- C3: `match_latency` returns milliseconds: when the matched line's unit
group is `'m'` the captured value is returned unchanged, when it is `'u'`
(microseconds) the value is divided by 1000, and when it is empty (plain
seconds) the value is multiplied by 1000. -/
theorem match_latency_unit_conversion (lines : List String) (p : ℕ) (v u : String) (x : ℚ)
    (h1 : match_line (latencyPat p) lines = some [v, u])
    (h2 : parseFloat v = some x) :
    (u = "m" → match_latency lines p = .ok x) ∧
    (u = "u" → match_latency lines p = .ok (x / 1000)) ∧
    (u = "" → match_latency lines p = .ok (x * 1000)) := by
  refine ⟨?_, ?_, ?_⟩ <;> intro hu <;> subst hu <;> simp [match_latency, h1, h2]

/-- Witness for C3: one concrete line per unit (`ms`, `us`, plain `s`). -/
theorem match_latency_unit_conversion_witness :
    match_latency ["    50%  2ms"] 50 = .ok 2 ∧
    match_latency ["    90%  500us"] 90 = .ok ((500 : ℚ) / 1000) ∧
    match_latency ["    99%  1.5s "] 99 = .ok ((1 + (5 : ℚ) / 10 ^ 1) * 1000) := by
  have hp2 : parseFloat "2" = some (2 : ℚ) := by
    have hd : splitOnDot "2".data = [['2']] := by decide
    have hid : isDigits ['2'] = true := by decide
    have hne : (String.mk ['2']).isEmpty = false := by decide
    have hnod : natOfDigits (String.mk ['2']) = 2 := by decide
    simp [parseFloat, hd, hid, hne, hnod]
  have hp500 : parseFloat "500" = some (500 : ℚ) := by
    have hd : splitOnDot "500".data = [['5', '0', '0']] := by decide
    have hid : isDigits ['5', '0', '0'] = true := by decide
    have hne : (String.mk ['5', '0', '0']).isEmpty = false := by decide
    have hnod : natOfDigits (String.mk ['5', '0', '0']) = 500 := by decide
    simp [parseFloat, hd, hid, hne, hnod]
  have hp15 : parseFloat "1.5" = some (1 + (5 : ℚ) / 10 ^ 1) := by
    have hd : splitOnDot "1.5".data = [['1'], ['5']] := by decide
    have hid1 : isDigits ['1'] = true := by decide
    have hid5 : isDigits ['5'] = true := by decide
    have hne : (String.mk ['1']).isEmpty = false := by decide
    have hnod1 : natOfDigits (String.mk ['1']) = 1 := by decide
    have hnod5 : natOfDigits (String.mk ['5']) = 5 := by decide
    simp [parseFloat, hd, hid1, hid5, hne, hnod1, hnod5]
  refine ⟨?_, ?_, ?_⟩
  · exact (match_latency_unit_conversion ["    50%  2ms"] 50 "2" "m" 2
      (by decide) hp2).1 rfl
  · exact (match_latency_unit_conversion ["    90%  500us"] 90 "500" "u" 500
      (by decide) hp500).2.1 rfl
  · exact (match_latency_unit_conversion ["    99%  1.5s "] 99 "1.5" ""
      (1 + (5 : ℚ) / 10 ^ 1) (by decide) hp15).2.2 rfl

/-- Shared helper: every failure of `match_latency` is a `ValueError`. -/
theorem match_latency_error_eq {lines : List String} {p : ℕ} {e : BenchError}
    (h : match_latency lines p = .error e) : e = .valueError := by
  unfold match_latency at h
  cases hm : match_line (latencyPat p) lines with
  | none =>
    rw [hm] at h
    cases h
    rfl
  | some caps =>
    simp only [hm] at h
    cases hp : parseFloat (caps.getD 0 "") with
    | none =>
      simp only [hp] at h
      cases h
      rfl
    | some x =>
      simp only [hp] at h
      cases h

/-- Shared helper: `match_latency` fails when its pattern matches no line. -/
theorem match_latency_error_of_no_line {lines : List String} {p : ℕ}
    (h : match_line (latencyPat p) lines = none) :
    match_latency lines p = .error .valueError := by
  unfold match_latency
  rw [h]

/-- C4: `run_benchmark`'s parsing either succeeds or raises.  When the
optional `Non-2xx or 3xx responses` line is absent the error-response
count is 0; when the optional `Socket errors` line is absent the
other-error count is 0; and when any mandatory line (a 50/90/99
percentile-latency line or the total-requests line) matches no output
line, a `ValueError` is raised. -/
theorem parse_bench_output_error_handling (lines : List String) :
    ((match_line (latencyPat 50) lines = none ∨ match_line (latencyPat 90) lines = none ∨
      match_line (latencyPat 99) lines = none ∨ match_line requestsPat lines = none) →
      parse_bench_output lines = .error .valueError) ∧
    (∀ pr, parse_bench_output lines = .ok pr →
      (match_line non2xxPat lines = none → pr.request_errors_new = 0) ∧
      (match_line socketPat lines = none → pr.other_errors_new = 0)) := by
  constructor
  · intro hd
    cases hm50 : match_latency lines 50 with
    | error e =>
      rw [match_latency_error_eq hm50] at hm50
      simp [parse_bench_output, Bind.bind, Except.bind, hm50]
    | ok x50 =>
      have h50ok : match_line (latencyPat 50) lines ≠ none := by
        intro hn
        rw [match_latency_error_of_no_line hn] at hm50
        cases hm50
      cases hm90 : match_latency lines 90 with
      | error e =>
        rw [match_latency_error_eq hm90] at hm90
        simp [parse_bench_output, Bind.bind, Except.bind, hm50, hm90]
      | ok x90 =>
        have h90ok : match_line (latencyPat 90) lines ≠ none := by
          intro hn
          rw [match_latency_error_of_no_line hn] at hm90
          cases hm90
        cases hm99 : match_latency lines 99 with
        | error e =>
          rw [match_latency_error_eq hm99] at hm99
          simp [parse_bench_output, Bind.bind, Except.bind, hm50, hm90, hm99]
        | ok x99 =>
          have h99ok : match_line (latencyPat 99) lines ≠ none := by
            intro hn
            rw [match_latency_error_of_no_line hn] at hm99
            cases hm99
          have hreq : match_line requestsPat lines = none := by
            rcases hd with h | h | h | h
            · exact absurd h h50ok
            · exact absurd h h90ok
            · exact absurd h h99ok
            · exact h
          simp [parse_bench_output, Bind.bind, Except.bind, hm50, hm90, hm99, hreq]
  · intro pr hok
    cases hm50 : match_latency lines 50 with
    | error e =>
      simp [parse_bench_output, Bind.bind, Except.bind, hm50] at hok
    | ok x50 =>
      cases hm90 : match_latency lines 90 with
      | error e =>
        simp [parse_bench_output, Bind.bind, Except.bind, hm50, hm90] at hok
      | ok x90 =>
        cases hm99 : match_latency lines 99 with
        | error e =>
          simp [parse_bench_output, Bind.bind, Except.bind, hm50, hm90, hm99] at hok
        | ok x99 =>
          cases hmreq : match_line requestsPat lines with
          | none =>
            simp [parse_bench_output, Bind.bind, Except.bind, hm50, hm90, hm99, hmreq] at hok
          | some capsr =>
            cases hsock : match_line socketPat lines with
            | none =>
              simp only [parse_bench_output, hm50, hm90, hm99, hmreq, hsock] at hok
              simp only [Bind.bind, Except.bind] at hok
              cases hok
              refine ⟨fun hnon => ?_, fun _ => rfl⟩
              simp [hnon]
            | some capss =>
              simp only [parse_bench_output, Bind.bind, Except.bind, hm50, hm90, hm99,
                hmreq, hsock] at hok
              by_cases hts : natOfDigits (capss.getD 3 "") = 0
              · rw [if_pos hts] at hok
                simp only [Pure.pure, Except.pure] at hok
                cases hok
                refine ⟨fun hnon => ?_, fun hs => ?_⟩
                · simp [hnon]
                · exact Option.noConfusion hs
              · rw [if_neg hts] at hok
                cases hok

/-- Witness for C4: the full wrk output parses with both optional error
counts defaulting to 0, and dropping the mandatory requests line raises
`ValueError`. -/
theorem parse_bench_output_error_handling_witness :
    ((parse_bench_output wrkOutput0).map (fun pr => pr.request_errors_new) = .ok 0 ∨
      match_line non2xxPat wrkOutput0 ≠ none) ∧
    ((parse_bench_output wrkOutput0).map (fun pr => pr.other_errors_new) = .ok 0 ∨
      match_line socketPat wrkOutput0 ≠ none) ∧
    parse_bench_output ["    50%  2ms", "    90%  2ms", "    99%  2ms"]
      = .error .valueError := by
  refine ⟨?_, ?_, ?_⟩
  · cases hok : parse_bench_output wrkOutput0 with
    | error e =>
      exact absurd hok (by rw [parse_wrkOutput0]; intro h; cases h)
    | ok pr =>
      left
      have := ((parse_bench_output_error_handling wrkOutput0).2 pr hok).1 (by decide)
      simp [Except.map, this]
  · cases hok : parse_bench_output wrkOutput0 with
    | error e =>
      exact absurd hok (by rw [parse_wrkOutput0]; intro h; cases h)
    | ok pr =>
      left
      have := ((parse_bench_output_error_handling wrkOutput0).2 pr hok).2 (by decide)
      simp [Except.map, this]
  · exact (parse_bench_output_error_handling
      ["    50%  2ms", "    90%  2ms", "    99%  2ms"]).1 (by right; right; right; decide)

/-- Witness for C5 on concrete wrk output lines: the optional error line
is found past a non-matching line, and a list without it yields `none`. -/
theorem match_line_first_match_witness :
    fullmatch non2xxPat "  3485 requests in 10.01s, 772.55KB read" = none ∧
    match_line non2xxPat
      ["  3485 requests in 10.01s, 772.55KB read", "  Non-2xx or 3xx responses: 25"]
      = some ["25"] ∧
    match_line_steps non2xxPat
      ["  3485 requests in 10.01s, 772.55KB read", "  Non-2xx or 3xx responses: 25"] ≤ 2 := by
  refine ⟨?_, ?_, ?_⟩
  · exact (match_line_first_match non2xxPat
      ["  3485 requests in 10.01s, 772.55KB read"]).1.mp (by decide) _ (by simp)
  · exact (match_line_first_match non2xxPat
      ["  3485 requests in 10.01s, 772.55KB read", "  Non-2xx or 3xx responses: 25"]).2.2.1
      ["  3485 requests in 10.01s, 772.55KB read"] "  Non-2xx or 3xx responses: 25" [] ["25"]
      rfl (by decide) (by intro l'' h; simp at h; rw [h]; decide)
  · exact (match_line_first_match non2xxPat
      ["  3485 requests in 10.01s, 772.55KB read", "  Non-2xx or 3xx responses: 25"]).2.2.2

end Harness
